import Mathlib

/-!
Shallow embedding of the entry-processing pipeline of `quinnypig/aws-skeetbot`
(`src/bot/snarkbot.py` and `src/bot/skeetbot.py`), together with theorems
settling the specification claims about it.

Modelling conventions:
* Python strings are `List Char`; Python `len` is `List.length`,
  `s[:n]` is `List.take n`, `s.rsplit(" ", 1)[0]` is `before_last_space`,
  `s.rstrip(",")` is `rstrip_commas`.
* Fallible external calls (DynamoDB reads, the Anthropic call, `send_post`)
  are modelled by per-entry oracles giving each call's outcome; exceptions
  become explicit result values.  An exception raised by `send_post` carries
  the class tag the `except` clauses of the source dispatch on
  (`RequestException`, `BadRequestError`, anything else) plus its HTTP
  status code, following the handlers in `snarkit` / `skeetit` and
  `process_entry`.
* The `while` loop of `process_entry` is embedded as structural recursion on
  a `fuel` argument that equals `max_retries - retry_count` (`5 - retry`);
  the source's loop condition `trim >= 100 and retry_count < max_retries`
  corresponds to `100 ≤ trim` together with `fuel ≠ 0`.
* Wall-clock instants are naturals; `within(published_parsed, threshold)`
  depends on the external clock and is abstracted by the `recent` field of
  an entry.
-/

/-- One RSS feed entry as consumed by `process_entry`.  `recent` abstracts
the value of `within(entry.published_parsed, minutes=recency_threshold)`. -/
structure Entry where
  guid : String
  title : List Char
  link : String
  description : List Char
  recent : Bool
  deriving DecidableEq

/-- Outcome of one `client.send_post` call, tagged with the exception class
the source's `except` clauses dispatch on. -/
inductive SendPostResult where
  | ok : SendPostResult
  | reqExc (status : Nat) : SendPostResult
  | badRequestErr (status : Nat) (msg : List Char) : SendPostResult
  | otherExc : SendPostResult
  deriving DecidableEq

/-- Exception kinds that can escape `process_entry` uncaught (its `except`
clauses only handle `RateLimitExceededError` and `BadRequestError`). -/
inductive Uncaught where
  | transformErr : Uncaught
  | reqExc (status : Nat) : Uncaught
  | otherExc : Uncaught
  | putItemErr : Uncaught
  | dedupReadErr : Uncaught
  deriving DecidableEq

/-- Result of `process_entry`: returned `True` (keep going), returned
`False` (rate limited, caller must stop), or raised an exception. -/
inductive EntryResult where
  | cont : EntryResult
  | stop : EntryResult
  | raised (u : Uncaught) : EntryResult
  deriving DecidableEq

/-- A DynamoDB item written to the posts table. `error` is the optional
`error` attribute, `hasTimestamp` records whether a `timestamp` attribute
was included. -/
structure Item where
  guid : String
  title : List Char
  link : String
  error : Option (List Char)
  hasTimestamp : Bool
  deriving DecidableEq

/-- The successful-post record `{guid, title, link}` (snarkbot.py 172-178,
skeetbot.py 157-163). -/
def postItem (e : Entry) : Item :=
  ⟨e.guid, e.title, e.link, none, false⟩

/-- The sentinel failure record written by snarkbot's give-up path
(snarkbot.py 197-205). -/
def sentinelItem (e : Entry) (msg : List Char) : Item :=
  ⟨e.guid, "FAILED: ".toList ++ e.title.take 100, "FAILED_POST",
    some (msg.take 500), true⟩

/-- Observable per-entry effects: posts-table writes, `send_post` calls,
Anthropic calls (the `anthropic_counter` increments), and the `items`
counter increments. -/
structure Trace where
  writes : List Item
  publishCalls : Nat
  transformCalls : Nat
  itemsProcessed : Nat
  deriving DecidableEq

/-- The empty trace. -/
def Trace.nil : Trace := ⟨[], 0, 0, 0⟩

/-- Sequential composition of traces. -/
def Trace.app (a b : Trace) : Trace :=
  ⟨a.writes ++ b.writes, a.publishCalls + b.publishCalls,
    a.transformCalls + b.transformCalls, a.itemsProcessed + b.itemsProcessed⟩

/-- Outcomes of the external calls made while processing one entry:
the posts-table read for the guid, the Anthropic text-generation call of
each attempt, the `send_post` of each attempt, and whether the
posts-table write after a successful publish succeeds. -/
structure EntryOracle where
  dedupRead : Except Unit Bool
  transform : Nat → Except Unit (List Char)
  send : Nat → SendPostResult
  putOk : Bool

/-- snarkbot.py 61-66 / skeetbot.py 60-65 (identical in both files):
trim text to `max_length`, cutting back to the last space, stripping
trailing commas and appending an ellipsis. -/
def rstrip_commas (s : List Char) : List Char :=
  (s.reverse.dropWhile (fun c => c == ',')).reverse

/-- Python `s.rsplit(" ", 1)[0]`: everything before the last space of `s`,
or `s` itself when `s` has no space. -/
def before_last_space (s : List Char) : List Char :=
  match s.reverse.dropWhile (fun c => c != ' ') with
  | [] => s
  | _ :: rest => rest.reverse

/-- The function `trim_to_last_word(text, max_length)` from snarkbot.py
61-66 and skeetbot.py 60-65. -/
def trim_to_last_word (text : List Char) (max_length : Nat) : List Char :=
  if text.length ≤ max_length then text
  else rstrip_commas (before_last_space (text.take max_length)) ++ ['…']

/-- snarkbot.py 75-84: `already_posted` returns whether the item exists and
returns `true` when the DynamoDB read raises ("Return True to avoid
reprocessing on DB errors"). -/
def snark_already_posted (read : Except Unit Bool) : Bool :=
  match read with
  | .ok exists_flag => exists_flag
  | .error _ => true

/-- skeetbot.py 74-75: `already_posted` has no `try`/`except`; a DynamoDB
error propagates to the caller. -/
def skeet_already_posted (read : Except Unit Bool) : Except Unit Bool :=
  read

/-- The initial budget `trim = 295 - len(entry.title)` (snarkbot.py 161,
skeetbot.py 147).  Python integers are unbounded, so the value is an
`Int`. -/
def init_trim (e : Entry) : Int :=
  295 - (e.title.length : Int)

/-- The shrinking-budget retry loop of snarkbot's `process_entry`
(snarkbot.py 164-208).  `retry` is the source's `retry_count`; `fuel`
equals `max_retries - retry_count` and makes the recursion structural
(the entry point uses `retry = 0`, `fuel = 5`, and every step increments
`retry` while decrementing `fuel`).  Each iteration: call `snarkify`
(outcome `o.transform retry`; the counter increments even if the call then
raises), call `send_post` (outcome `o.send retry`, filtered through
`snarkit`'s handlers), and on success write the post record.  A
`RateLimitExceededError` returns `False` (`.stop`); a `BadRequestError`
with status 429 breaks out of the loop; any other `BadRequestError`
shrinks `trim` by 15, bumps `retry_count` and, when `trim < 100` or
`retry_count ≥ 5`, writes the sentinel failure record. -/
def snark_loop_aux (o : EntryOracle) (e : Entry) :
    Int → Nat → Nat → EntryResult × Trace
  | _, _, 0 => (.cont, Trace.nil)
  | trim, retry, fuel + 1 =>
    if 100 ≤ trim then
      match o.transform retry with
      | .error _ => (.raised .transformErr, ⟨[], 0, 1, 0⟩)
      | .ok _ =>
        match o.send retry with
        | .ok =>
          if o.putOk then (.cont, ⟨[postItem e], 1, 1, 0⟩)
          else (.raised .putItemErr, ⟨[], 1, 1, 0⟩)
        | .reqExc status =>
          if status = 429 then (.stop, ⟨[], 1, 1, 0⟩)
          else (.raised (.reqExc status), ⟨[], 1, 1, 0⟩)
        | .badRequestErr status msg =>
          if status = 429 then (.cont, ⟨[], 1, 1, 0⟩)
          else
            let next := snark_loop_aux o e (trim - 15) (retry + 1) fuel
            if trim - 15 < 100 ∨ 5 ≤ retry + 1 then
              (next.1, Trace.app ⟨[sentinelItem e msg], 1, 1, 0⟩ next.2)
            else (next.1, Trace.app ⟨[], 1, 1, 0⟩ next.2)
        | .otherExc => (.raised .otherExc, ⟨[], 1, 1, 0⟩)
    else (.cont, Trace.nil)

/-- snarkbot.py 150-210: `process_entry`.  Both `is_recent` and
`is_posted` are computed up front (lines 151-152); a dedup read error is
absorbed by `already_posted` (fail open).  An admitted entry bumps the
`items` counter and runs the retry loop starting from
`trim = 295 - len(title)`, `retry_count = 0`, `max_retries = 5`. -/
def snark_process_entry (o : EntryOracle) (e : Entry) : EntryResult × Trace :=
  let is_posted := snark_already_posted o.dedupRead
  if e.recent ∧ ¬is_posted then
    let r := snark_loop_aux o e (init_trim e) 0 5
    (r.1, Trace.app ⟨[], 0, 0, 1⟩ r.2)
  else (.cont, Trace.nil)

/-- skeetbot.py 150-178: the same retry loop, except the give-up path only
logs — no sentinel record is written. -/
def skeet_loop_aux (o : EntryOracle) (e : Entry) :
    Int → Nat → Nat → EntryResult × Trace
  | _, _, 0 => (.cont, Trace.nil)
  | trim, retry, fuel + 1 =>
    if 100 ≤ trim then
      match o.transform retry with
      | .error _ => (.raised .transformErr, ⟨[], 0, 1, 0⟩)
      | .ok _ =>
        match o.send retry with
        | .ok =>
          if o.putOk then (.cont, ⟨[postItem e], 1, 1, 0⟩)
          else (.raised .putItemErr, ⟨[], 1, 1, 0⟩)
        | .reqExc status =>
          if status = 429 then (.stop, ⟨[], 1, 1, 0⟩)
          else (.raised (.reqExc status), ⟨[], 1, 1, 0⟩)
        | .badRequestErr status _msg =>
          if status = 429 then (.cont, ⟨[], 1, 1, 0⟩)
          else
            let next := skeet_loop_aux o e (trim - 15) (retry + 1) fuel
            (next.1, Trace.app ⟨[], 1, 1, 0⟩ next.2)
        | .otherExc => (.raised .otherExc, ⟨[], 1, 1, 0⟩)
    else (.cont, Trace.nil)

/-- skeetbot.py 139-180: `process_entry`.  The admission test
`within(...) and not already_posted(...)` short-circuits, and
`already_posted` has no error handling, so a dedup read error propagates
out of `process_entry` for recent entries. -/
def skeet_process_entry (o : EntryOracle) (e : Entry) : EntryResult × Trace :=
  if e.recent then
    match skeet_already_posted o.dedupRead with
    | .error _ => (.raised .dedupReadErr, Trace.nil)
    | .ok true => (.cont, Trace.nil)
    | .ok false =>
      let r := skeet_loop_aux o e (init_trim e) 0 5
      (r.1, Trace.app ⟨[], 0, 0, 1⟩ r.2)
  else (.cont, Trace.nil)

/-- The `circuit_status` item `{is_open, open_time}` (snarkbot.py 258-265);
the `reason` string attribute is not modelled. -/
structure OpenRecord where
  is_open : Bool
  open_time : Nat
  deriving DecidableEq

/-- The circuit-breaker table: the `failure_count` item (absent or a
counter value) and the `circuit_status` item. -/
structure BreakerState where
  failure_count : Option Nat
  circuit : Option OpenRecord
  deriving DecidableEq

/-- snarkbot.py 217-239: `check_circuit_breaker`.  `cfg` is whether
`CircuitBreakerTableName` is configured.  Returns whether the circuit is
open together with the (possibly reset) breaker state. -/
def check_circuit_breaker (cfg : Bool) (st : BreakerState) (now : Nat) :
    Bool × BreakerState :=
  if cfg then
    match st.circuit with
    | some rec0 =>
      if rec0.is_open then
        if now - rec0.open_time < 300 then (true, st)
        else (false, ⟨st.failure_count, none⟩)
      else (false, st)
    | none => (false, st)
  else (false, st)

/-- snarkbot.py 241-270: `record_failure` atomically increments
`failure_count` (creating it at 1) and, when the post-increment value
reaches `FAILURE_THRESHOLD = 5`, writes the open record and deletes
`failure_count`. -/
def record_failure (cfg : Bool) (st : BreakerState) (now : Nat) :
    BreakerState :=
  if cfg then
    let fc := st.failure_count.getD 0 + 1
    if 5 ≤ fc then ⟨none, some ⟨true, now⟩⟩
    else ⟨some fc, st.circuit⟩
  else st

/-- snarkbot.py 272-281: `reset_failure_count` deletes the
`failure_count` item. -/
def reset_failure_count (cfg : Bool) (st : BreakerState) : BreakerState :=
  if cfg then ⟨none, st.circuit⟩ else st

/-- Outcome of the `for` loop over the feed (snarkbot.py 305-309):
ran to the end, broke out because an entry signalled rate limiting, or an
exception propagated. -/
inductive RunStatus where
  | done : RunStatus
  | stopped : RunStatus
  | raised (u : Uncaught) : RunStatus
  deriving DecidableEq

/-- The feed loop of snarkbot's `lambda_handler` (lines 305-309): process
entries in order, breaking on a `False` return and propagating
exceptions.  Returns the loop outcome plus the per-entry traces of the
entries that were processed (in order). -/
def run_entries (feed : List (Entry × EntryOracle)) :
    RunStatus × List (String × Trace) :=
  match feed with
  | [] => (.done, [])
  | (e, o) :: rest =>
    match snark_process_entry o e with
    | (.cont, t) =>
      let r := run_entries rest
      (r.1, (e.guid, t) :: r.2)
    | (.stop, t) => (.stopped, [(e.guid, t)])
    | (.raised u, t) => (.raised u, [(e.guid, t)])

/-- Total Anthropic calls of a run: the final value of
`anthropic_counter`. -/
def totalTransformCalls (ts : List (String × Trace)) : Nat :=
  match ts with
  | [] => 0
  | (_, t) :: rest => t.transformCalls + totalTransformCalls rest

/-- How a snarkbot invocation ended. -/
inductive RunResult where
  | skipped : RunResult
  | completed : RunResult
  | raised (u : Uncaught) : RunResult
  deriving DecidableEq

/-- Which breaker operation the end-of-run health classification invoked. -/
inductive BreakerUpdate where
  | recordedFailure : BreakerUpdate
  | resetCount : BreakerUpdate
  deriving DecidableEq

/-- Observable outcome of one snarkbot `lambda_handler` invocation. -/
structure RunOutput where
  result : RunResult
  traces : List (String × Trace)
  breaker : BreakerState
  updates : List BreakerUpdate
  highUsage : Bool
  breakerOpenSignal : Bool
  deriving DecidableEq

/-- snarkbot.py 286-325: `lambda_handler`.  Check the circuit breaker and
skip the run when open; otherwise drive the feed loop (any exception from
it propagates out of the handler — there is no surrounding `try`), then
classify health: more than 10 Anthropic calls records a breaker failure
and emits the high-usage signal, otherwise the failure count is reset. -/
def snark_lambda_handler (cfg : Bool) (bst : BreakerState) (now : Nat)
    (feed : List (Entry × EntryOracle)) : RunOutput :=
  let c := check_circuit_breaker cfg bst now
  if c.1 then ⟨.skipped, [], c.2, [], false, true⟩
  else
    let r := run_entries feed
    match r.1 with
    | .raised u => ⟨.raised u, r.2, c.2, [], false, false⟩
    | _ =>
      let calls := totalTransformCalls r.2
      if 10 < calls then
        ⟨.completed, r.2, record_failure cfg c.2 now, [.recordedFailure],
          true, false⟩
      else
        ⟨.completed, r.2, reset_failure_count cfg c.2, [.resetCount],
          false, false⟩


/-- Outcome of one skeetbot `lambda_handler` invocation.  `updates`
records the circuit-breaker operations the handler invokes, mirroring the
`updates` field of `RunOutput`: skeetbot's handler (skeetbot.py 186-197)
contains no circuit breaker, so it never invokes any. -/
structure SkeetRunOutput where
  result : RunResult
  traces : List (String × Trace)
  updates : List BreakerUpdate
  deriving DecidableEq

/-- The feed loop of skeetbot's `lambda_handler` (skeetbot.py 191-193):
process entries in order, breaking on a `False` return and propagating
exceptions. -/
def skeet_run_entries (feed : List (Entry × EntryOracle)) :
    RunStatus × List (String × Trace) :=
  match feed with
  | [] => (.done, [])
  | (e, o) :: rest =>
    match skeet_process_entry o e with
    | (.cont, t) =>
      let r := skeet_run_entries rest
      (r.1, (e.guid, t) :: r.2)
    | (.stop, t) => (.stopped, [(e.guid, t)])
    | (.raised u, t) => (.raised u, [(e.guid, t)])

/-- skeetbot.py 186-197: `lambda_handler`.  No circuit-breaker check, no
surrounding `try`, and no end-of-run health classification: the handler
only drives the feed loop and emits the two counters, so no breaker
operation is ever invoked. -/
def skeet_lambda_handler (feed : List (Entry × EntryOracle)) :
    SkeetRunOutput :=
  let r := skeet_run_entries feed
  match r.1 with
  | .raised u => ⟨.raised u, r.2, []⟩
  | _ => ⟨.completed, r.2, []⟩

/-! ### Basic lemmas about traces and the truncation helpers -/

theorem Trace.app_nil (t : Trace) : Trace.app t Trace.nil = t := by
  cases t; simp [Trace.app, Trace.nil]

theorem dropWhile_length_le (p : Char → Bool) (l : List Char) :
    (l.dropWhile p).length ≤ l.length := by
  induction l with
  | nil => simp
  | cons a l ih =>
    rw [List.dropWhile_cons]
    by_cases h : p a
    · simp [h]; omega
    · simp [h]

theorem dropWhile_head_false (p : Char → Bool) (l : List Char) {c : Char}
    {t : List Char} (h : l.dropWhile p = c :: t) : p c = false := by
  induction l with
  | nil => simp at h
  | cons a l ih =>
    rw [List.dropWhile_cons] at h
    by_cases hp : p a
    · exact ih (by simpa [hp] using h)
    · simp only [hp, if_false, Bool.false_eq_true, ite_false, List.cons.injEq] at h
      obtain ⟨h1, -⟩ := h
      subst h1
      simpa using hp

theorem before_last_space_length_le (s : List Char) :
    (before_last_space s).length ≤ s.length := by
  unfold before_last_space
  cases hd : s.reverse.dropWhile (fun c => c != ' ') with
  | nil => exact le_refl _
  | cons c rest =>
    have h1 : (c :: rest).length ≤ s.reverse.length := by
      rw [← hd]; exact dropWhile_length_le _ _
    simp only [List.length_cons, List.length_reverse] at h1 ⊢
    omega

/-- When `s` contains a space, `before_last_space s` is exactly the part of
`s` before its final space. -/
theorem before_last_space_split (s : List Char) (h : ' ' ∈ s) :
    ∃ w, s = before_last_space s ++ ' ' :: w := by
  have hmem : ' ' ∈ s.reverse := List.mem_reverse.mpr h
  cases hd : s.reverse.dropWhile (fun c => c != ' ') with
  | nil =>
    exfalso
    have hall := List.dropWhile_eq_nil_iff.mp hd ' ' hmem
    simp at hall
  | cons c rest =>
    have hc : (c != ' ') = false := dropWhile_head_false (fun x => x != ' ') s.reverse hd
    have hc' : c = ' ' := by simpa using hc
    subst hc'
    have hsp : s.reverse.takeWhile (fun c => c != ' ') ++ (' ' :: rest) =
        s.reverse := by
      rw [← hd]; exact List.takeWhile_append_dropWhile _ _
    refine ⟨(s.reverse.takeWhile (fun c => c != ' ')).reverse, ?_⟩
    have hbls : before_last_space s = rest.reverse := by
      unfold before_last_space; rw [hd]
    have h2 := congrArg List.reverse hsp
    rw [List.reverse_append, List.reverse_reverse, List.reverse_cons] at h2
    rw [hbls]
    conv_lhs => rw [← h2]
    rw [List.append_assoc, List.singleton_append]

theorem before_last_space_length_lt (s : List Char) (h : ' ' ∈ s) :
    (before_last_space s).length < s.length := by
  obtain ⟨w, hw⟩ := before_last_space_split s h
  conv_rhs => rw [hw]
  simp [List.length_append]

theorem rstrip_commas_length_le (s : List Char) :
    (rstrip_commas s).length ≤ s.length := by
  unfold rstrip_commas
  calc (s.reverse.dropWhile (fun c => c == ',')).reverse.length
      = (s.reverse.dropWhile (fun c => c == ',')).length := by
        rw [List.length_reverse]
    _ ≤ s.reverse.length := dropWhile_length_le _ _
    _ = s.length := List.length_reverse _

/-! ### Claims about the truncation transform (C2, C10) -/

/-- C2 (counterexample): the truncation law fails as stated.  On input
"aaaaab" with limit 5 the prefix has no space, so the result "aaaaa…" has
length 6 > 5 (and splits the word "aaaaab" mid-word); and an
input "…" already within the limit is returned unchanged, so the result
ends with the ellipsis marker even though the input did not exceed the
limit. -/
theorem c2_counterexample :
    5 < "aaaaab".toList.length ∧
      trim_to_last_word "aaaaab".toList 5 = "aaaaa…".toList ∧
      ¬ (trim_to_last_word "aaaaab".toList 5).length ≤ 5 ∧
      "…".toList.length ≤ 5 ∧
      (∃ b, trim_to_last_word "…".toList 5 = b ++ ['…']) := by
  refine ⟨by decide, by decide, by decide, by decide, ⟨[], by decide⟩⟩

/-- C2 (amended): inputs within the limit are returned unchanged; longer
inputs always yield a result ending in the ellipsis marker, of length at
most `limit + 1` in general and at most `limit` whenever the truncated
prefix contains a space, in which case the kept text ends exactly at a
space boundary of the input (with trailing commas then stripped).  When
the prefix contains no space the raw prefix is kept, so the result may
exceed the limit by one and may split a word. -/
theorem c2_amended (text : List Char) (limit : Nat) (_hpos : 0 < limit) :
    (text.length ≤ limit → trim_to_last_word text limit = text) ∧
      (limit < text.length →
        (∃ b, trim_to_last_word text limit = b ++ ['…']) ∧
          (trim_to_last_word text limit).length ≤ limit + 1 ∧
          (' ' ∈ text.take limit →
            (trim_to_last_word text limit).length ≤ limit ∧
              ∃ w, text = before_last_space (text.take limit) ++ ' ' :: w ∧
                trim_to_last_word text limit =
                  rstrip_commas (before_last_space (text.take limit)) ++
                    ['…'])) := by
  constructor
  · intro h
    simp [trim_to_last_word, h]
  · intro h
    have hne : ¬ text.length ≤ limit := not_le.mpr h
    have heq : trim_to_last_word text limit =
        rstrip_commas (before_last_space (text.take limit)) ++ ['…'] := by
      simp [trim_to_last_word, hne]
    have hplen : (text.take limit).length = limit := by
      rw [List.length_take]
      omega
    refine ⟨⟨_, heq⟩, ?_, ?_⟩
    · rw [heq, List.length_append]
      have h1 := rstrip_commas_length_le (before_last_space (text.take limit))
      have h2 := before_last_space_length_le (text.take limit)
      simp only [List.length_cons, List.length_nil]
      omega
    · intro hsp
      have hlt := before_last_space_length_lt (text.take limit) hsp
      have h1 := rstrip_commas_length_le (before_last_space (text.take limit))
      constructor
      · rw [heq, List.length_append]
        simp only [List.length_cons, List.length_nil]
        omega
      · obtain ⟨w, hw⟩ := before_last_space_split (text.take limit) hsp
        refine ⟨w ++ text.drop limit, ?_, heq⟩
        conv_lhs => rw [← List.take_append_drop limit text]
        conv_lhs => rw [hw]
        simp [List.append_assoc]

/-- C2 (amended) applied at a concrete input: "hello world foo" truncated
to 11 stays within the limit because its prefix contains a space. -/
theorem c2_amended_witness :
    (trim_to_last_word "hello world foo".toList 11).length ≤ 11 :=
  (((c2_amended "hello world foo".toList 11 (by decide)).2
    (by decide)).2.2 (by decide)).1

/-- C10: an input whose length is within the limit is returned exactly
unchanged by `trim_to_last_word` — no ellipsis, no comma stripping, no
character removed. -/
theorem c10_trim_identity (text : List Char) (limit : Nat)
    (h : text.length ≤ limit) :
    trim_to_last_word text limit = text := by
  simp [trim_to_last_word, h]

/-- C10 applied at a concrete input (a string with markup, a trailing
comma and within the limit comes back unchanged). -/
theorem c10_trim_identity_witness :
    ("<b>AWS news</b>,".toList.length ≤ 100) ∧
      trim_to_last_word "<b>AWS news</b>,".toList 100 =
        "<b>AWS news</b>,".toList :=
  ⟨by decide, c10_trim_identity _ _ (by decide)⟩

/-! ### Claims about the dedup check (C3) -/

/-- C3 (counterexample): skeetbot's `already_posted` (skeetbot.py 74-75)
does not fail open — a storage read error propagates instead of yielding
`true`. -/
theorem c3_counterexample :
    skeet_already_posted (Except.error ()) = Except.error () ∧
      skeet_already_posted (Except.error ()) ≠ Except.ok true := by
  refine ⟨rfl, ?_⟩
  simp [skeet_already_posted]

/-- C3 (amended): snarkbot's `already_posted` fails open, returning `true`
whenever the storage read errors; skeetbot's `already_posted` has no error
handling and propagates the storage error to its caller. -/
theorem c3_amended (r : Except Unit Bool) (u : Unit)
    (h : r = Except.error u) :
    snark_already_posted r = true ∧
      skeet_already_posted r = Except.error u := by
  subst h
  exact ⟨rfl, rfl⟩

/-- C3 (amended) applied at a concrete erroring read. -/
theorem c3_amended_witness :
    snark_already_posted (Except.error ()) = true ∧
      skeet_already_posted (Except.error ()) = Except.error () :=
  c3_amended (Except.error ()) () rfl

/-! ### Claims about the budget guard (C6) -/

set_option maxRecDepth 4000 in
/-- C6 (counterexample): `trim` is computed as `295 - len(title)` with no
guard, so a 296-character title yields `trim = -1 < 0`. -/
theorem c6_counterexample :
    init_trim ⟨"g", List.replicate 296 'a', "l", [], true⟩ = -1 ∧
      init_trim ⟨"g", List.replicate 296 'a', "l", [], true⟩ < 0 := by
  constructor <;> decide

/-- The loop body is never entered once `trim < 100` (the `while` guard
`trim >= 100` fails), for snarkbot's loop. -/
theorem snark_loop_aux_low (o : EntryOracle) (e : Entry) (trim : Int)
    (retry fuel : Nat) (h : trim < 100) :
    snark_loop_aux o e trim retry fuel = (.cont, Trace.nil) := by
  cases fuel with
  | zero => rfl
  | succ f => simp [snark_loop_aux, not_le.mpr h]

/-- Same for skeetbot's loop. -/
theorem skeet_loop_aux_low (o : EntryOracle) (e : Entry) (trim : Int)
    (retry fuel : Nat) (h : trim < 100) :
    skeet_loop_aux o e trim retry fuel = (.cont, Trace.nil) := by
  cases fuel with
  | zero => rfl
  | succ f => simp [skeet_loop_aux, not_le.mpr h]

/-- C6 (amended): the initial `trim = 295 - len(title)` can be negative
(no explicit guard exists), but whenever the title alone drives the
budget below the minimum viable 100 — in particular whenever `trim` is
negative — the retry loop exits immediately: no transform call and no
publish call is made, in both bots, and the loop body never runs with
`trim < 100`. -/
theorem c6_amended (o : EntryOracle) (e : Entry)
    (h : init_trim e < 100) :
    (∀ (trim : Int) (retry fuel : Nat), trim < 100 →
        snark_loop_aux o e trim retry fuel = (.cont, Trace.nil) ∧
          skeet_loop_aux o e trim retry fuel = (.cont, Trace.nil)) ∧
      (snark_process_entry o e).1 = .cont ∧
      (snark_process_entry o e).2.transformCalls = 0 ∧
      (snark_process_entry o e).2.publishCalls = 0 ∧
      (skeet_process_entry o e).2.transformCalls = 0 ∧
      (skeet_process_entry o e).2.publishCalls = 0 := by
  have hlow := snark_loop_aux_low o e (init_trim e) 0 5 h
  have hlow' := skeet_loop_aux_low o e (init_trim e) 0 5 h
  have hs : (snark_process_entry o e).1 = .cont ∧
      (snark_process_entry o e).2.transformCalls = 0 ∧
      (snark_process_entry o e).2.publishCalls = 0 := by
    rcases hr : o.dedupRead with u | b
    · simp [snark_process_entry, snark_already_posted, hr, Trace.nil]
    · cases b
      · cases he : e.recent
        · simp [snark_process_entry, snark_already_posted, hr, he,
            Trace.nil]
        · simp [snark_process_entry, snark_already_posted, hr, he, hlow,
            Trace.app, Trace.nil]
      · simp [snark_process_entry, snark_already_posted, hr, Trace.nil]
  have hk : (skeet_process_entry o e).2.transformCalls = 0 ∧
      (skeet_process_entry o e).2.publishCalls = 0 := by
    rcases hr : o.dedupRead with u | b
    · cases he : e.recent <;>
        simp [skeet_process_entry, skeet_already_posted, hr, he, Trace.nil]
    · cases b <;> cases he : e.recent <;>
        simp [skeet_process_entry, skeet_already_posted, hr, he, hlow',
          Trace.app, Trace.nil]
  exact ⟨fun trim retry fuel hlt =>
    ⟨snark_loop_aux_low o e trim retry fuel hlt,
      skeet_loop_aux_low o e trim retry fuel hlt⟩,
    hs.1, hs.2.1, hs.2.2, hk.1, hk.2⟩

set_option maxRecDepth 4000 in
/-- C6 (amended) applied to an entry whose 196-character title leaves an
initial budget of 99 < 100: no transform or publish call happens. -/
theorem c6_amended_witness :
    ((snark_process_entry ⟨Except.ok false, fun _ => Except.ok ['p'],
        fun _ => SendPostResult.ok, true⟩
      ⟨"guid-w6", List.replicate 196 'a', "l", [], true⟩).2.transformCalls
        = 0) ∧
      ((snark_process_entry ⟨Except.ok false, fun _ => Except.ok ['p'],
          fun _ => SendPostResult.ok, true⟩
        ⟨"guid-w6", List.replicate 196 'a', "l", [], true⟩).2.publishCalls
          = 0) :=
  ⟨(c6_amended _ _ (by decide)).2.2.1, (c6_amended _ _ (by decide)).2.2.2.1⟩

/-! ### Claim C8: entries already in the dedup store -/

/-- C8: when the dedup read reports the guid as present, `process_entry`
(in both bots) makes no publish call and performs no store write — the
whole entry is skipped with an empty trace. -/
theorem c8_posted_never_published (e : Entry) (o : EntryOracle)
    (h : o.dedupRead = Except.ok true) :
    snark_process_entry o e = (.cont, Trace.nil) ∧
      skeet_process_entry o e = (.cont, Trace.nil) ∧
      (snark_process_entry o e).2.publishCalls = 0 ∧
      (snark_process_entry o e).2.writes = [] ∧
      (skeet_process_entry o e).2.publishCalls = 0 ∧
      (skeet_process_entry o e).2.writes = [] := by
  have h1 : snark_process_entry o e = (.cont, Trace.nil) := by
    simp [snark_process_entry, snark_already_posted, h]
  have h2 : skeet_process_entry o e = (.cont, Trace.nil) := by
    cases he : e.recent <;>
      simp [skeet_process_entry, skeet_already_posted, h, he]
  refine ⟨h1, h2, ?_, ?_, ?_, ?_⟩ <;> first
    | (rw [h1]; rfl)
    | (rw [h2]; rfl)

/-- C8 applied at a concrete present guid. -/
theorem c8_posted_never_published_witness :
    snark_process_entry
        ⟨Except.ok true, fun _ => Except.ok ['p'],
          fun _ => SendPostResult.ok, true⟩
        ⟨"guid-w8", ['T'], "l", ['d'], true⟩ = (.cont, Trace.nil) ∧
      skeet_process_entry
        ⟨Except.ok true, fun _ => Except.ok ['p'],
          fun _ => SendPostResult.ok, true⟩
        ⟨"guid-w8", ['T'], "l", ['d'], true⟩ = (.cont, Trace.nil) :=
  ⟨(c8_posted_never_published _ _ rfl).1,
    (c8_posted_never_published _ _ rfl).2.1⟩

/-! ### Claim C7: the circuit breaker -/

/-- The breaker state after five consecutive `record_failure()` calls at
time `t0`, starting from an empty breaker store. -/
def breaker_after_failures (t0 : Nat) : BreakerState :=
  record_failure true (record_failure true (record_failure true
    (record_failure true (record_failure true ⟨none, none⟩ t0) t0) t0) t0) t0

/-- C7: starting from an empty breaker store, five `record_failure()`
calls open the circuit and clear the failure count; `is_open` then
reports `true` while less than 300 seconds have elapsed, and once 300
seconds have elapsed it reports `false` and deletes the open record. -/
theorem c7_circuit_breaker (t0 now1 now2 : Nat)
    (h1 : now1 - t0 < 300) (h2 : 300 ≤ now2 - t0) :
    breaker_after_failures t0 = ⟨none, some ⟨true, t0⟩⟩ ∧
      check_circuit_breaker true (breaker_after_failures t0) now1 =
        (true, ⟨none, some ⟨true, t0⟩⟩) ∧
      check_circuit_breaker true (breaker_after_failures t0) now2 =
        (false, ⟨none, none⟩) := by
  have hb : breaker_after_failures t0 = ⟨none, some ⟨true, t0⟩⟩ := by
    simp [breaker_after_failures, record_failure]
  refine ⟨hb, ?_, ?_⟩ <;> rw [hb]
  · simp [check_circuit_breaker, h1]
  · simp [check_circuit_breaker, not_lt.mpr h2]

/-- C7 applied at concrete times: opened at 0, still open at 299, closed
(and cleared) at 300. -/
theorem c7_circuit_breaker_witness :
    check_circuit_breaker true (breaker_after_failures 0) 299 =
        (true, ⟨none, some ⟨true, 0⟩⟩) ∧
      check_circuit_breaker true (breaker_after_failures 0) 300 =
        (false, ⟨none, none⟩) :=
  ⟨(c7_circuit_breaker 0 299 300 (by decide) (by decide)).2.1,
    (c7_circuit_breaker 0 299 300 (by decide) (by decide)).2.2⟩

/-! ### One-step unfolding lemmas for the retry loops -/

theorem snark_loop_aux_terr (o : EntryOracle) (e : Entry) (trim : Int)
    (retry fuel : Nat) (h100 : 100 ≤ trim) (u : Unit)
    (ht : o.transform retry = Except.error u) :
    snark_loop_aux o e trim retry (fuel + 1) =
      (.raised .transformErr, ⟨[], 0, 1, 0⟩) := by
  simp [snark_loop_aux, h100, ht]

theorem snark_loop_aux_pub_ok (o : EntryOracle) (e : Entry) (trim : Int)
    (retry fuel : Nat) (h100 : 100 ≤ trim) (p : List Char)
    (ht : o.transform retry = Except.ok p)
    (hs : o.send retry = SendPostResult.ok) (hput : o.putOk = true) :
    snark_loop_aux o e trim retry (fuel + 1) =
      (.cont, ⟨[postItem e], 1, 1, 0⟩) := by
  simp [snark_loop_aux, h100, ht, hs, hput]

theorem snark_loop_aux_put_fail (o : EntryOracle) (e : Entry) (trim : Int)
    (retry fuel : Nat) (h100 : 100 ≤ trim) (p : List Char)
    (ht : o.transform retry = Except.ok p)
    (hs : o.send retry = SendPostResult.ok) (hput : o.putOk = false) :
    snark_loop_aux o e trim retry (fuel + 1) =
      (.raised .putItemErr, ⟨[], 1, 1, 0⟩) := by
  simp [snark_loop_aux, h100, ht, hs, hput]

theorem snark_loop_aux_rate (o : EntryOracle) (e : Entry) (trim : Int)
    (retry fuel : Nat) (h100 : 100 ≤ trim) (p : List Char)
    (ht : o.transform retry = Except.ok p)
    (hs : o.send retry = SendPostResult.reqExc 429) :
    snark_loop_aux o e trim retry (fuel + 1) = (.stop, ⟨[], 1, 1, 0⟩) := by
  simp [snark_loop_aux, h100, ht, hs]

theorem snark_loop_aux_br429 (o : EntryOracle) (e : Entry) (trim : Int)
    (retry fuel : Nat) (h100 : 100 ≤ trim) (p : List Char)
    (ht : o.transform retry = Except.ok p) (m : List Char)
    (hs : o.send retry = SendPostResult.badRequestErr 429 m) :
    snark_loop_aux o e trim retry (fuel + 1) = (.cont, ⟨[], 1, 1, 0⟩) := by
  simp [snark_loop_aux, h100, ht, hs]

theorem snark_loop_aux_br (o : EntryOracle) (e : Entry) (trim : Int)
    (retry fuel : Nat) (h100 : 100 ≤ trim) (p : List Char)
    (ht : o.transform retry = Except.ok p) (s : Nat) (m : List Char)
    (hs : o.send retry = SendPostResult.badRequestErr s m) (h429 : s ≠ 429) :
    snark_loop_aux o e trim retry (fuel + 1) =
      if trim - 15 < 100 ∨ 5 ≤ retry + 1 then
        ((snark_loop_aux o e (trim - 15) (retry + 1) fuel).1,
          Trace.app ⟨[sentinelItem e m], 1, 1, 0⟩
            (snark_loop_aux o e (trim - 15) (retry + 1) fuel).2)
      else
        ((snark_loop_aux o e (trim - 15) (retry + 1) fuel).1,
          Trace.app ⟨[], 1, 1, 0⟩
            (snark_loop_aux o e (trim - 15) (retry + 1) fuel).2) := by
  simp [snark_loop_aux, h100, ht, hs, h429]

theorem skeet_loop_aux_br (o : EntryOracle) (e : Entry) (trim : Int)
    (retry fuel : Nat) (h100 : 100 ≤ trim) (p : List Char)
    (ht : o.transform retry = Except.ok p) (s : Nat) (m : List Char)
    (hs : o.send retry = SendPostResult.badRequestErr s m) (h429 : s ≠ 429) :
    skeet_loop_aux o e trim retry (fuel + 1) =
      ((skeet_loop_aux o e (trim - 15) (retry + 1) fuel).1,
        Trace.app ⟨[], 1, 1, 0⟩
          (skeet_loop_aux o e (trim - 15) (retry + 1) fuel).2) := by
  simp [skeet_loop_aux, h100, ht, hs, h429]

/-- Running `process_entry` on an admitted entry (recent, dedup read
reports absent) runs the retry loop from `trim = 295 - len(title)` and counts the
entry in `items`. -/
theorem snark_process_entry_admitted (o : EntryOracle) (e : Entry)
    (hrec : e.recent = true) (hded : o.dedupRead = Except.ok false) :
    snark_process_entry o e =
      ((snark_loop_aux o e (init_trim e) 0 5).1,
        Trace.app ⟨[], 0, 0, 1⟩ (snark_loop_aux o e (init_trim e) 0 5).2) := by
  simp [snark_process_entry, snark_already_posted, hrec, hded]

theorem skeet_process_entry_admitted (o : EntryOracle) (e : Entry)
    (hrec : e.recent = true) (hded : o.dedupRead = Except.ok false) :
    skeet_process_entry o e =
      ((skeet_loop_aux o e (init_trim e) 0 5).1,
        Trace.app ⟨[], 0, 0, 1⟩ (skeet_loop_aux o e (init_trim e) 0 5).2) := by
  simp [skeet_process_entry, skeet_already_posted, hrec, hded]

/-! ### The all-length-rejected scenario (C4) -/

/-- Under an oracle whose every attempt generates text successfully and
then gets a non-429 `BadRequestError`, snarkbot's retry loop (invoked
with `retry + fuel = 5`, i.e. `fuel` attempts remaining) returns `True`,
performs between 1 and `fuel` attempts, and writes exactly one sentinel
failure record. -/
theorem snark_loop_allfail (o : EntryOracle) (e : Entry)
    (hfail : ∀ k, (∃ p, o.transform k = Except.ok p) ∧
      ∃ s m, o.send k = SendPostResult.badRequestErr s m ∧ s ≠ 429) :
    ∀ fuel trim retry, retry + fuel = 5 → 1 ≤ fuel → 100 ≤ trim →
      ∃ m n, snark_loop_aux o e trim retry fuel =
          (.cont, ⟨[sentinelItem e m], n, n, 0⟩) ∧ 1 ≤ n ∧ n ≤ fuel := by
  intro fuel
  induction fuel with
  | zero => omega
  | succ f ih =>
    intro trim retry hinv hf h100
    obtain ⟨⟨p, hp⟩, s, m, hs, hs429⟩ := hfail retry
    rw [snark_loop_aux_br o e trim retry f h100 p hp s m hs hs429]
    by_cases hstop : trim - 15 < 100 ∨ 5 ≤ retry + 1
    · have hnext : snark_loop_aux o e (trim - 15) (retry + 1) f =
          (.cont, Trace.nil) := by
        rcases hstop with h' | h'
        · exact snark_loop_aux_low o e _ _ _ h'
        · have hf0 : f = 0 := by omega
          subst hf0; rfl
      rw [if_pos hstop, hnext]
      exact ⟨m, 1, by simp [Trace.app, Trace.nil], by omega, by omega⟩
    · rw [if_neg hstop]
      push_neg at hstop
      obtain ⟨h1, h2⟩ := hstop
      obtain ⟨m', n, hrec, hn1, hnle⟩ :=
        ih (trim - 15) (retry + 1) (by omega) (by omega) (by omega)
      rw [hrec]
      refine ⟨m', 1 + n, by simp [Trace.app], by omega, by omega⟩

/-- skeetbot's retry loop under the same all-rejected oracle: returns
`True`, performs at most `fuel` attempts, and writes nothing at all. -/
theorem skeet_loop_allfail (o : EntryOracle) (e : Entry)
    (hfail : ∀ k, (∃ p, o.transform k = Except.ok p) ∧
      ∃ s m, o.send k = SendPostResult.badRequestErr s m ∧ s ≠ 429) :
    ∀ fuel trim retry,
      ∃ n, skeet_loop_aux o e trim retry fuel =
          (.cont, ⟨[], n, n, 0⟩) ∧ n ≤ fuel := by
  intro fuel
  induction fuel with
  | zero => exact fun trim retry => ⟨0, rfl, le_refl 0⟩
  | succ f ih =>
    intro trim retry
    by_cases h100 : 100 ≤ trim
    · obtain ⟨⟨p, hp⟩, s, m, hs, hs429⟩ := hfail retry
      rw [skeet_loop_aux_br o e trim retry f h100 p hp s m hs hs429]
      obtain ⟨n, hrec, hnle⟩ := ih (trim - 15) (retry + 1)
      rw [hrec]
      exact ⟨1 + n, by simp [Trace.app], by omega⟩
    · rw [skeet_loop_aux_low o e trim retry (f + 1) (by omega)]
      exact ⟨0, rfl, by omega⟩

/-! ### Concrete example inputs used by counterexamples and witnesses -/

/-- A recent, unposted entry with a one-character title
(initial budget 294). -/
def exEntry : Entry := ⟨"guid-1", ['T'], "link-1", ['d'], true⟩

/-- A second such entry. -/
def exEntry2 : Entry := ⟨"guid-2", ['U'], "link-2", ['e'], true⟩

/-- Oracle: generation succeeds, every publish gets a `BadRequestError`
with status 400. -/
def exAllFail : EntryOracle :=
  ⟨Except.ok false, fun _ => Except.ok ['p'],
    fun _ => SendPostResult.badRequestErr 400 ['m'], true⟩

/-- Oracle: generation succeeds, the publish gets a `BadRequestError`
carrying HTTP status 429. -/
def exBr429 : EntryOracle :=
  ⟨Except.ok false, fun _ => Except.ok ['p'],
    fun _ => SendPostResult.badRequestErr 429 ['m'], true⟩

/-- Oracle: everything succeeds. -/
def exPubOk : EntryOracle :=
  ⟨Except.ok false, fun _ => Except.ok ['p'],
    fun _ => SendPostResult.ok, true⟩

/-- Oracle: the publish raises a `RequestException` with status 429
(converted to `RateLimitExceededError` by `snarkit`). -/
def exRL : EntryOracle :=
  ⟨Except.ok false, fun _ => Except.ok ['p'],
    fun _ => SendPostResult.reqExc 429, true⟩

/-- Oracle: the text-generation call raises. -/
def exTransformFail : EntryOracle :=
  ⟨Except.ok false, fun _ => Except.error (),
    fun _ => SendPostResult.ok, true⟩

/-- Oracle: publish succeeds but the posts-table write after it fails. -/
def exPutFail : EntryOracle :=
  ⟨Except.ok false, fun _ => Except.ok ['p'],
    fun _ => SendPostResult.ok, false⟩

/-! ### Claim C4: the shrink loop bound and the sentinel record -/

/-- C4 (counterexample): in skeetbot, an admitted entry whose every
attempt is length-rejected exhausts its 5 attempts but no sentinel
failure record is written (the give-up path at skeetbot.py 175-178 only
logs), so nothing prevents the entry from being retried in future runs. -/
theorem c4_counterexample :
    (skeet_process_entry exAllFail exEntry).2.publishCalls = 5 ∧
      (skeet_process_entry exAllFail exEntry).2.writes = [] ∧
      (skeet_process_entry exAllFail exEntry).1 = .cont := by
  refine ⟨?_, ?_, ?_⟩ <;> decide

/-- C4 (amended): for an admitted entry whose every attempt is rejected
with a non-429 `BadRequestError`, both retry loops terminate after at
most 5 attempts.  snarkbot writes exactly one sentinel failure record —
title `"FAILED: "` plus the first 100 title characters, link replaced by
the fixed marker `"FAILED_POST"`, error message truncated to 500
characters — and a dedup record with this guid makes every later run skip
the entry.  skeetbot performs the same bounded retries but writes no
sentinel at all. -/
theorem c4_amended (o : EntryOracle) (e : Entry)
    (hrec : e.recent = true) (hded : o.dedupRead = Except.ok false)
    (htrim : 100 ≤ init_trim e)
    (hfail : ∀ k, (∃ p, o.transform k = Except.ok p) ∧
      ∃ s m, o.send k = SendPostResult.badRequestErr s m ∧ s ≠ 429) :
    (∃ m n, snark_process_entry o e =
        (.cont, ⟨[sentinelItem e m], n, n, 1⟩) ∧ 1 ≤ n ∧ n ≤ 5 ∧
        (sentinelItem e m).title = "FAILED: ".toList ++ e.title.take 100 ∧
        (sentinelItem e m).link = "FAILED_POST" ∧
        (sentinelItem e m).error = some (m.take 500) ∧
        (m.take 500).length ≤ 500) ∧
      (∀ o2 : EntryOracle, o2.dedupRead = Except.ok true →
        snark_process_entry o2 e = (.cont, Trace.nil)) ∧
      (skeet_process_entry o e).1 = .cont ∧
      (skeet_process_entry o e).2.writes = [] ∧
      (skeet_process_entry o e).2.publishCalls ≤ 5 := by
  obtain ⟨m, n, hl, hn1, hn5⟩ :=
    snark_loop_allfail o e hfail 5 (init_trim e) 0 rfl (by omega) htrim
  obtain ⟨n', hl', hn'⟩ := skeet_loop_allfail o e hfail 5 (init_trim e) 0
  refine ⟨⟨m, n, ?_, hn1, hn5, rfl, rfl, rfl, ?_⟩, ?_, ?_, ?_, ?_⟩
  · rw [snark_process_entry_admitted o e hrec hded, hl]
    simp [Trace.app]
  · rw [List.length_take]
    omega
  · intro o2 h2
    simp [snark_process_entry, snark_already_posted, h2]
  · rw [skeet_process_entry_admitted o e hrec hded, hl']
  · rw [skeet_process_entry_admitted o e hrec hded, hl']
    simp [Trace.app]
  · rw [skeet_process_entry_admitted o e hrec hded, hl']
    simp [Trace.app]
    omega

/-- C4 (amended) applied to a concrete all-rejected entry: snarkbot ends
with exactly one sentinel record for it. -/
theorem c4_amended_witness :
    ∃ m n, snark_process_entry exAllFail exEntry =
        (.cont, ⟨[sentinelItem exEntry m], n, n, 1⟩) := by
  obtain ⟨⟨m, n, h, -⟩, -⟩ :=
    c4_amended exAllFail exEntry rfl rfl (by decide)
      (fun k => ⟨⟨['p'], rfl⟩, 400, ['m'], rfl, by decide⟩)
  exact ⟨m, n, h⟩

/-! ### Unfolding lemmas for the feed loop -/

theorem run_entries_cont (e : Entry) (o : EntryOracle)
    (rest : List (Entry × EntryOracle)) (t : Trace)
    (h : snark_process_entry o e = (.cont, t)) :
    run_entries ((e, o) :: rest) =
      ((run_entries rest).1, (e.guid, t) :: (run_entries rest).2) := by
  simp [run_entries, h]

theorem run_entries_stop (e : Entry) (o : EntryOracle)
    (rest : List (Entry × EntryOracle)) (t : Trace)
    (h : snark_process_entry o e = (.stop, t)) :
    run_entries ((e, o) :: rest) = (.stopped, [(e.guid, t)]) := by
  simp [run_entries, h]

theorem run_entries_raised (e : Entry) (o : EntryOracle)
    (rest : List (Entry × EntryOracle)) (t : Trace) (u : Uncaught)
    (h : snark_process_entry o e = (.raised u, t)) :
    run_entries ((e, o) :: rest) = (.raised u, [(e.guid, t)]) := by
  simp [run_entries, h]

/-! ### Claim C1: what a 429 does to the run -/

/-- C1 (counterexample): entry 1's only publish attempt observes a 429
carried inside a `BadRequestError`, yet the run does not halt — the
publisher is still invoked for entry 2 of the same feed snapshot and the
run completes normally. -/
theorem c1_counterexample :
    exBr429.send 0 = SendPostResult.badRequestErr 429 ['m'] ∧
      snark_lambda_handler false ⟨none, none⟩ 0
          [(exEntry, exBr429), (exEntry2, exPubOk)] =
        ⟨.completed,
          [("guid-1", ⟨[], 1, 1, 1⟩),
            ("guid-2", ⟨[postItem exEntry2], 1, 1, 1⟩)],
          ⟨none, none⟩, [.resetCount], false, false⟩ ∧
      ((snark_lambda_handler false ⟨none, none⟩ 0
          [(exEntry, exBr429), (exEntry2, exPubOk)]).traces.getD 1
        ("", Trace.nil)).2.publishCalls = 1 := by
  refine ⟨rfl, by decide, by decide⟩

/-- C1 (amended): a 429 surfacing as a rate-limit `RequestException`
makes `process_entry` return `False`, the feed loop stops with only this
entry's trace, and the handler processes no further entries; but a 429
carried inside a `BadRequestError` merely stops the retries for the
current entry (one publish call, no sentinel) and the run continues with
the remaining entries. -/
theorem c1_amended (e : Entry) (o : EntryOracle)
    (rest : List (Entry × EntryOracle)) (p : List Char)
    (hrec : e.recent = true) (hded : o.dedupRead = Except.ok false)
    (htrim : 100 ≤ init_trim e) (hp : o.transform 0 = Except.ok p) :
    (o.send 0 = SendPostResult.reqExc 429 →
        snark_process_entry o e = (.stop, ⟨[], 1, 1, 1⟩) ∧
          run_entries ((e, o) :: rest) =
            (.stopped, [(e.guid, ⟨[], 1, 1, 1⟩)]) ∧
          ∀ (cfg : Bool) (bst : BreakerState) (now : Nat),
            (check_circuit_breaker cfg bst now).1 = false →
            (snark_lambda_handler cfg bst now ((e, o) :: rest)).traces =
              [(e.guid, ⟨[], 1, 1, 1⟩)]) ∧
      (∀ m, o.send 0 = SendPostResult.badRequestErr 429 m →
        snark_process_entry o e = (.cont, ⟨[], 1, 1, 1⟩) ∧
          run_entries ((e, o) :: rest) =
            ((run_entries rest).1,
              (e.guid, ⟨[], 1, 1, 1⟩) :: (run_entries rest).2)) := by
  constructor
  · intro hs
    have hpe : snark_process_entry o e = (.stop, ⟨[], 1, 1, 1⟩) := by
      rw [snark_process_entry_admitted o e hrec hded,
        (show (5 : Nat) = 4 + 1 from rfl),
        snark_loop_aux_rate o e (init_trim e) 0 4 htrim p hp hs]
      simp [Trace.app]
    have hrun := run_entries_stop e o rest _ hpe
    refine ⟨hpe, hrun, ?_⟩
    intro cfg bst now hopen
    simp [snark_lambda_handler, hopen, hrun, totalTransformCalls]
  · intro m hs
    have hpe : snark_process_entry o e = (.cont, ⟨[], 1, 1, 1⟩) := by
      rw [snark_process_entry_admitted o e hrec hded,
        (show (5 : Nat) = 4 + 1 from rfl),
        snark_loop_aux_br429 o e (init_trim e) 0 4 htrim p hp m hs]
      simp [Trace.app]
    exact ⟨hpe, run_entries_cont e o rest _ hpe⟩

/-- C1 (amended) applied at a concrete rate-limited entry: the run stops
with only that entry processed. -/
theorem c1_amended_witness :
    snark_process_entry exRL exEntry = (.stop, ⟨[], 1, 1, 1⟩) ∧
      run_entries [(exEntry, exRL), (exEntry2, exPubOk)] =
        (.stopped, [("guid-1", ⟨[], 1, 1, 1⟩)]) :=
  ⟨((c1_amended exEntry exRL [(exEntry2, exPubOk)] ['p'] rfl rfl (by decide)
      rfl).1 rfl).1,
    ((c1_amended exEntry exRL [(exEntry2, exPubOk)] ['p'] rfl rfl (by decide)
      rfl).1 rfl).2.1⟩

/-! ### Claim C5: errors escaping the run controller -/

/-- C5 (counterexample): a text-generation failure on an admitted entry
leaves `lambda_handler` as an uncaught exception — the run ends with a
raised error, no breaker update of any kind, and an unchanged breaker
state. -/
theorem c5_counterexample :
    (snark_lambda_handler true ⟨none, none⟩ 0
        [(exEntry, exTransformFail)]).result =
        RunResult.raised Uncaught.transformErr ∧
      (snark_lambda_handler true ⟨none, none⟩ 0
        [(exEntry, exTransformFail)]).updates = [] ∧
      (snark_lambda_handler true ⟨none, none⟩ 0
        [(exEntry, exTransformFail)]).breaker = ⟨none, none⟩ := by
  refine ⟨by decide, by decide, by decide⟩

/-- C5 (amended): `lambda_handler` has no top-level handler: an error that
the per-entry `except` clauses do not cover — a text-generation failure,
or a posts-table write failure after a successful publish — propagates
out of the handler uncaught, and the run performs no breaker update at
all. -/
theorem c5_amended (cfg : Bool) (bst : BreakerState) (now : Nat)
    (e : Entry) (o : EntryOracle) (rest : List (Entry × EntryOracle))
    (hopen : (check_circuit_breaker cfg bst now).1 = false)
    (hrec : e.recent = true) (hded : o.dedupRead = Except.ok false)
    (htrim : 100 ≤ init_trim e) :
    (∀ u, o.transform 0 = Except.error u →
        (snark_lambda_handler cfg bst now ((e, o) :: rest)).result =
            RunResult.raised Uncaught.transformErr ∧
          (snark_lambda_handler cfg bst now ((e, o) :: rest)).updates =
            [] ∧
          (snark_lambda_handler cfg bst now ((e, o) :: rest)).breaker =
            (check_circuit_breaker cfg bst now).2) ∧
      (∀ p, o.transform 0 = Except.ok p → o.send 0 = SendPostResult.ok →
        o.putOk = false →
        (snark_lambda_handler cfg bst now ((e, o) :: rest)).result =
            RunResult.raised Uncaught.putItemErr ∧
          (snark_lambda_handler cfg bst now ((e, o) :: rest)).updates =
            []) := by
  constructor
  · intro u hu
    have hpe : snark_process_entry o e =
        (.raised .transformErr, ⟨[], 0, 1, 1⟩) := by
      rw [snark_process_entry_admitted o e hrec hded,
        (show (5 : Nat) = 4 + 1 from rfl),
        snark_loop_aux_terr o e (init_trim e) 0 4 htrim u hu]
      simp [Trace.app]
    have hrun := run_entries_raised e o rest _ _ hpe
    refine ⟨?_, ?_, ?_⟩ <;> simp [snark_lambda_handler, hopen, hrun]
  · intro p hp hs hput
    have hpe : snark_process_entry o e =
        (.raised .putItemErr, ⟨[], 1, 1, 1⟩) := by
      rw [snark_process_entry_admitted o e hrec hded,
        (show (5 : Nat) = 4 + 1 from rfl),
        snark_loop_aux_put_fail o e (init_trim e) 0 4 htrim p hp hs hput]
      simp [Trace.app]
    have hrun := run_entries_raised e o rest _ _ hpe
    constructor <;> simp [snark_lambda_handler, hopen, hrun]

/-- C5 (amended) applied at concrete failing runs: a generation failure
and a post-success write failure both escape the handler. -/
theorem c5_amended_witness :
    (snark_lambda_handler true ⟨none, none⟩ 0
        [(exEntry, exTransformFail)]).result =
        RunResult.raised Uncaught.transformErr ∧
      (snark_lambda_handler true ⟨none, none⟩ 0
          [(exEntry, exPutFail)]).result =
        RunResult.raised Uncaught.putItemErr :=
  ⟨((c5_amended true ⟨none, none⟩ 0 exEntry exTransformFail [] rfl rfl rfl
      (by decide)).1 () rfl).1,
    ((c5_amended true ⟨none, none⟩ 0 exEntry exPutFail [] rfl rfl rfl
      (by decide)).2 ['p'] rfl rfl rfl).1⟩

/-! ### Claim C9: end-of-run health classification -/

/-- C9 (counterexample): skeetbot's `lambda_handler` contains no circuit
breaker — a completed, never-skipped skeetbot run ends with zero breaker
updates, not exactly one; and a non-skipped snarkbot run that ends in an
uncaught error also performs no breaker update. -/
theorem c9_counterexample :
    skeet_lambda_handler [(exEntry, exPubOk)] =
        ⟨.completed, [("guid-1", ⟨[postItem exEntry], 1, 1, 1⟩)], []⟩ ∧
      (skeet_lambda_handler [(exEntry, exPubOk)]).updates = [] ∧
      (snark_lambda_handler true ⟨none, none⟩ 0
          [(exEntry2, exTransformFail)]).result =
        RunResult.raised Uncaught.transformErr ∧
      (snark_lambda_handler true ⟨none, none⟩ 0
          [(exEntry2, exTransformFail)]).updates = [] := by
  refine ⟨by decide, by decide, by decide, by decide⟩

/-- C9 (amended): snarkbot's run controller performs exactly one breaker
update at the end of every non-skipped run whose feed loop finishes
(normally or via the rate-limit break): `record_failure()` plus the
high-usage signal when more than 10 Anthropic calls were made, otherwise
`reset_failure_count()`.  A non-skipped snarkbot run that ends in an
uncaught error performs no breaker update at all, and skeetbot's run
controller has no circuit breaker, so every skeetbot run performs zero
breaker updates. -/
theorem c9_amended (cfg : Bool) (bst : BreakerState) (now : Nat)
    (feed : List (Entry × EntryOracle))
    (hopen : (check_circuit_breaker cfg bst now).1 = false) :
    ((run_entries feed).1 = RunStatus.done ∨
        (run_entries feed).1 = RunStatus.stopped →
      (snark_lambda_handler cfg bst now feed).result =
          RunResult.completed ∧
        (snark_lambda_handler cfg bst now feed).updates.length = 1 ∧
        (10 < totalTransformCalls (run_entries feed).2 →
          (snark_lambda_handler cfg bst now feed).updates =
              [BreakerUpdate.recordedFailure] ∧
            (snark_lambda_handler cfg bst now feed).highUsage = true ∧
            (snark_lambda_handler cfg bst now feed).breaker =
              record_failure cfg (check_circuit_breaker cfg bst now).2
                now) ∧
        (totalTransformCalls (run_entries feed).2 ≤ 10 →
          (snark_lambda_handler cfg bst now feed).updates =
              [BreakerUpdate.resetCount] ∧
            (snark_lambda_handler cfg bst now feed).highUsage = false ∧
            (snark_lambda_handler cfg bst now feed).breaker =
              reset_failure_count cfg
                (check_circuit_breaker cfg bst now).2)) ∧
      (∀ u, (run_entries feed).1 = RunStatus.raised u →
        (snark_lambda_handler cfg bst now feed).result =
            RunResult.raised u ∧
          (snark_lambda_handler cfg bst now feed).updates = []) ∧
      (∀ feed2 : List (Entry × EntryOracle),
        (skeet_lambda_handler feed2).updates = []) := by
  refine ⟨?_, ?_, ?_⟩
  · intro hdone
    have hout : snark_lambda_handler cfg bst now feed =
        if 10 < totalTransformCalls (run_entries feed).2 then
          ⟨.completed, (run_entries feed).2,
            record_failure cfg (check_circuit_breaker cfg bst now).2 now,
            [.recordedFailure], true, false⟩
        else
          ⟨.completed, (run_entries feed).2,
            reset_failure_count cfg (check_circuit_breaker cfg bst now).2,
            [.resetCount], false, false⟩ := by
      rcases hdone with hd | hd <;>
        simp [snark_lambda_handler, hopen, hd]
    by_cases hc : 10 < totalTransformCalls (run_entries feed).2
    · rw [hout, if_pos hc]
      exact ⟨rfl, rfl, fun _ => ⟨rfl, rfl, rfl⟩,
        fun hle => absurd hc (not_lt.mpr hle)⟩
    · rw [hout, if_neg hc]
      exact ⟨rfl, rfl, fun hgt => absurd hgt hc, fun _ => ⟨rfl, rfl, rfl⟩⟩
  · intro u hu
    constructor <;> simp [snark_lambda_handler, hopen, hu]
  · intro feed2
    unfold skeet_lambda_handler
    rcases hs : (skeet_run_entries feed2).1 <;> simp [hs]

/-- C9 (amended) applied at concrete runs: a quiet snarkbot run resets
the failure count, while a completed skeetbot run performs no breaker
update. -/
theorem c9_amended_witness :
    (snark_lambda_handler true ⟨none, none⟩ 0 []).updates =
        [BreakerUpdate.resetCount] ∧
      (skeet_lambda_handler [(exEntry, exPubOk)]).updates = [] :=
  ⟨(((c9_amended true ⟨none, none⟩ 0 [] rfl).1 (Or.inl rfl)).2.2.2
      (by decide)).1,
    (c9_amended true ⟨none, none⟩ 0 [] rfl).2.2 [(exEntry, exPubOk)]⟩
